import Mathlib

/-!
A shallow embedding of the dstore coordinator (`src/global.rs`) and caching
node (`src/local.rs`).

Modelling conventions:
* Byte strings (`bytes::Bytes` / `Vec<u8>`) are `List Nat`.
* The three `HashMap`s of `Global` are association lists with unique keys
  (insert replaces an existing binding, erase drops every binding of the key,
  so the model agrees with `HashMap` on all states).
* Each RPC handler becomes a pure function threading the coordinator state.
  gRPC `Status` error messages (built in the source with
  `format!`/`str::from_utf8`) are abstracted to their status kind.
* A stream (`tonic::Streaming<Byte>` / `ReceiverStream`) is the finite list of
  frame bodies actually carried; a producer-side panic that drops the sender
  is observed by the receiver as end-of-stream after the frames already sent.
* A panic reached inside a handler itself (the `unwrap()` in `update`) is an
  explicit `panicked` outcome, distinct from every gRPC status.
-/

/-- Maximum size of contents in a gRPC packet, `MAX_BYTE_SIZE` in `src/lib.rs`
(the spec calls it FRAME_MAX). -/
def MAX_BYTE_SIZE : Nat := 4194304

/-- Byte strings: keys, values, node identities. -/
abbrev Bytes := List Nat

/-- The gRPC status kinds produced by the coordinator handlers. -/
inductive StatusKind
  | notFound
  | alreadyExists
  deriving DecidableEq, Repr

/-- Association-list model of `HashMap::get`. -/
def alLookup {α : Type} : List (Bytes × α) → Bytes → Option α
  | [], _ => none
  | (k, v) :: t, q => if k = q then some v else alLookup t q

/-- Association-list model of `HashMap::insert`: replace the binding if the key
is present, otherwise add it. -/
def alInsert {α : Type} : List (Bytes × α) → Bytes → α → List (Bytes × α)
  | [], q, v => [(q, v)]
  | (k, w) :: t, q, v => if k = q then (q, v) :: t else (k, w) :: alInsert t q v

/-- Association-list model of `HashMap::remove` (key removal; on the unique-key
lists a `HashMap` produces this is plain deletion of the binding). -/
def alErase {α : Type} (l : List (Bytes × α)) (q : Bytes) : List (Bytes × α) :=
  l.filter (fun p => decide (p.1 ≠ q))

/-- Coordinator state, the three maps of `struct Global` (global.rs 21-28):
the key-value database, the named FIFO queues, and the per-node invalidation
queues. -/
structure Global where
  db : List (Bytes × Bytes)
  queues : List (Bytes × List Bytes)
  cluster : List (Bytes × List Bytes)
  deriving DecidableEq, Repr

/-- `Global::new` (global.rs 32-38): all three maps empty. -/
def Global.new : Global := ⟨[], [], []⟩

/-- `Global::insert` (global.rs 51-60): insert `(key, value)` only when the key
is absent; the error string `"{key} already in use."` is abstracted to a unit
error. -/
def Global.insert (g : Global) (key value : Bytes) : Except Unit Global :=
  match alLookup g.db key with
  | some _ => .error ()
  | none => .ok { g with db := alInsert g.db key value }

/-- `join` (global.rs 66-73): register the node with a fresh empty invalidation
queue, silently replacing any existing one. -/
def Global.join (g : Global) (id : Bytes) : Global :=
  { g with cluster := alInsert g.cluster id [] }

/-- Truncation of a `usize` length to `i32` by Rust `as i32`: keep the low 32
bits and reinterpret as two's complement. -/
def toI32 (n : Nat) : Int :=
  if n % 2 ^ 32 < 2 ^ 31 then ((n % 2 ^ 32 : Nat) : Int)
  else ((n % 2 ^ 32 : Nat) : Int) - 2 ^ 32

/-- `contains` (global.rs 76-83): return `value.len() as i32` when the key is
mapped, `not_found` otherwise. -/
def Global.contains (g : Global) (key : Bytes) : Except StatusKind Int :=
  match alLookup g.db key with
  | some v => .ok (toI32 v.length)
  | none => .error .notFound

/-- `push` (global.rs 86-92): `Global::insert`, with failure surfaced as
`already_exists`. -/
def Global.push (g : Global) (key value : Bytes) : Global × Except StatusKind Unit :=
  match g.insert key value with
  | .ok g2 => (g2, .ok ())
  | .error _ => (g, .error .alreadyExists)

/-- `push_file` (global.rs 95-117): frame 0 of the stream is the key, the
bodies of all later frames are concatenated in arrival order into the value,
and the pair is handed to `Global::insert`. An empty stream leaves both
buffers empty, so `([], [])` is inserted. -/
def Global.push_file (g : Global) (frames : List Bytes) : Global × Except StatusKind Unit :=
  match g.insert (frames.headD []) (frames.drop 1).flatten with
  | .ok g2 => (g2, .ok ())
  | .error _ => (g, .error .alreadyExists)

/-- `pull` (global.rs 120-130): return the mapped value whole, else
`not_found`. -/
def Global.pull (g : Global) (key : Bytes) : Except StatusKind Bytes :=
  match alLookup g.db key with
  | some v => .ok v
  | none => .error .notFound

/-- The frame-slicing loop `for i in 0..len / MAX_BYTE_SIZE` sending
`val[i*MAX_BYTE_SIZE..(i+1)*MAX_BYTE_SIZE]`, shared by `pull_file`
(global.rs 149-155) and `insert_file` (local.rs 156-160). Note the loop bound
is the floor of `len / MAX_BYTE_SIZE`: a final sub-`MAX_BYTE_SIZE` tail is
never emitted. -/
def sliceFrames (v : Bytes) : List Bytes :=
  (List.range (v.length / MAX_BYTE_SIZE)).map
    (fun i => (v.drop (i * MAX_BYTE_SIZE)).take MAX_BYTE_SIZE)

/-- `pull_file` (global.rs 136-159): the handler returns the stream
unconditionally (never `not_found`); the spawned producer task looks the key
up with `unwrap()`, so on an absent key it panics after sending nothing and
the receiver sees an empty stream. The result lists the frame bodies actually
emitted. -/
def Global.pull_file (g : Global) (key : Bytes) : Except StatusKind (List Bytes) :=
  .ok (match alLookup g.db key with
    | some v => sliceFrames v
    | none => [])

/-- `remove` (global.rs 162-178): first push the key onto every registered
node's invalidation queue, then delete it from the database; `not_found` when
it was absent, with the enqueued invalidations kept either way. -/
def Global.remove (g : Global) (key : Bytes) : Global × Except StatusKind Unit :=
  let cluster2 := g.cluster.map (fun p => (p.1, p.2 ++ [key]))
  match alLookup g.db key with
  | some _ => ({ g with db := alErase g.db key, cluster := cluster2 }, .ok ())
  | none => ({ g with cluster := cluster2 }, .error .notFound)

/-- `en_queue` (global.rs 181-194): push the value onto the back of the named
queue, creating the queue when the name is absent. -/
def Global.en_queue (g : Global) (key value : Bytes) : Global :=
  match alLookup g.queues key with
  | some q => { g with queues := alInsert g.queues key (q ++ [value]) }
  | none => { g with queues := alInsert g.queues key [value] }

/-- `de_queue` (global.rs 197-208): pop the front of the named queue;
`not_found` (with the same empty message) both when the name is absent and
when its queue is empty. The map entry itself is never removed. -/
def Global.de_queue (g : Global) (key : Bytes) : Global × Except StatusKind Bytes :=
  match alLookup g.queues key with
  | some (v :: rest) => ({ g with queues := alInsert g.queues key rest }, .ok v)
  | some [] => (g, .error .notFound)
  | none => (g, .error .notFound)

/-- Outcome of the `update` handler: a popped key, `not_found`, or a panic of
the handler itself. -/
inductive UpdateResult
  | ok (key : Bytes)
  | notFound
  | panicked
  deriving DecidableEq, Repr

/-- `update` (global.rs 211-229): `self.cluster.lock().await.get(id).unwrap()`
panics when the node id was never joined; otherwise pop the front of that
node's invalidation queue, `not_found` when it is empty. -/
def Global.update (g : Global) (id : Bytes) : Global × UpdateResult :=
  match alLookup g.cluster id with
  | none => (g, .panicked)
  | some [] => (g, .notFound)
  | some (k :: rest) => ({ g with cluster := alInsert g.cluster id rest }, .ok k)

/-- Which wire transport a node-side operation picks for a value. -/
inductive Transport
  | single
  | streamed
  deriving DecidableEq, Repr

/-- The dispatch of `Local::insert` (local.rs 81-87): `insert_single` (a
`push`) when `value.len() < MAX_BYTE_SIZE`, `insert_file` (a `push_file`)
otherwise. -/
def Local.insertTransport (value : Bytes) : Transport :=
  if value.length < MAX_BYTE_SIZE then .single else .streamed

/-- Rust `as usize` applied to an `i32` on a 64-bit target: sign-extend and
reinterpret, i.e. reduce modulo `2 ^ 64`. -/
def usizeOfI32 (i : Int) : Nat := (i % 2 ^ 64).toNat

/-- The read-through dispatch of `Local::get` (local.rs 197-202): `get_single`
(a `pull`) when `size as usize < MAX_BYTE_SIZE`, `get_file` (a `pull_file`)
otherwise. -/
def Local.getTransport (size : Int) : Transport :=
  if usizeOfI32 size < MAX_BYTE_SIZE then .single else .streamed

/-- `Local::get` (local.rs 183-205) up to the choice of transport: `none` on a
cache hit (no RPC follows) or when `contains` fails; otherwise the transport
chosen from the returned size. -/
def Local.getChoice (cache : List (Bytes × Bytes)) (g : Global) (key : Bytes) :
    Option Transport :=
  match alLookup cache key with
  | some _ => none
  | none =>
    match g.contains key with
    | .ok size => some (Local.getTransport size)
    | .error _ => none

/-- The frame sequence emitted by `insert_file` (local.rs 154-160): one frame
holding the key, then the `sliceFrames` of the value. -/
def Local.emitFrames (key value : Bytes) : List Bytes :=
  key :: sliceFrames value

/-- `get_file` (local.rs 230-247) on a cache miss: the bodies of the
`pull_file` stream are concatenated in arrival order and returned as success;
end-of-stream is the only terminator, so an empty stream yields the empty
value as success. -/
def Local.get_file (g : Global) (key : Bytes) : Except StatusKind Bytes :=
  match g.pull_file key with
  | .ok frames => .ok frames.flatten
  | .error e => .error e

/-- The streamed write/read round trip of the spec's property 3: a node
`push_file`s `(key, value)` into a fresh coordinator, then `get_file`s the key
back. -/
def fileRoundTrip (key value : Bytes) : Except StatusKind Bytes :=
  Local.get_file (Global.new.push_file (Local.emitFrames key value)).1 key

/-! ### Association-list lemmas -/

theorem alLookup_alInsert_self {α : Type} (l : List (Bytes × α)) (q : Bytes) (v : α) :
    alLookup (alInsert l q v) q = some v := by
  induction l with
  | nil => simp [alInsert, alLookup]
  | cons p t ih =>
    obtain ⟨k, w⟩ := p
    by_cases h : k = q
    · simp [alInsert, h, alLookup]
    · simp [alInsert, h, alLookup, ih]

theorem alLookup_alInsert_ne {α : Type} (l : List (Bytes × α)) (q r : Bytes) (v : α)
    (h : q ≠ r) : alLookup (alInsert l q v) r = alLookup l r := by
  induction l with
  | nil => simp [alInsert, alLookup, h]
  | cons p t ih =>
    obtain ⟨k, w⟩ := p
    by_cases hk : k = q
    · subst hk
      simp [alInsert, alLookup, h]
    · simp [alInsert, hk, alLookup, ih]

theorem alLookup_alErase_self {α : Type} (l : List (Bytes × α)) (q : Bytes) :
    alLookup (alErase l q) q = none := by
  induction l with
  | nil => rfl
  | cons p t ih =>
    obtain ⟨k, w⟩ := p
    by_cases h : k = q
    · simpa [alErase, h, List.filter_cons] using ih
    · simpa [alErase, h, List.filter_cons, alLookup] using ih

/-! ### Frame-slicing lemmas -/

theorem flatten_range_slices (v : Bytes) (n : Nat) :
    ((List.range n).map (fun i => (v.drop (i * MAX_BYTE_SIZE)).take MAX_BYTE_SIZE)).flatten
      = v.take (n * MAX_BYTE_SIZE) := by
  induction n with
  | zero => simp
  | succ n ih =>
    rw [List.range_succ, List.map_append, List.flatten_append, ih]
    simp only [List.map_cons, List.map_nil, List.flatten_cons, List.flatten_nil,
      List.append_nil]
    rw [Nat.succ_mul, List.take_add]

/-- Reassembling the emitted frames yields the value truncated to a whole
number of frames: the `|v| mod MAX_BYTE_SIZE` tail is lost. -/
theorem sliceFrames_flatten (v : Bytes) :
    (sliceFrames v).flatten = v.take (v.length / MAX_BYTE_SIZE * MAX_BYTE_SIZE) :=
  flatten_range_slices v _

/-! ### Claim theorems -/

/-- Helper for C1: slicing a replicate of `MAX_BYTE_SIZE + 1` bytes and
reassembling keeps only the first `MAX_BYTE_SIZE` bytes. -/
theorem sliceFrames_replicate_succ :
    (sliceFrames (List.replicate (MAX_BYTE_SIZE + 1) (0 : Nat))).flatten
      = List.replicate MAX_BYTE_SIZE 0 := by
  rw [sliceFrames_flatten, List.length_replicate]
  have hdiv : (MAX_BYTE_SIZE + 1) / MAX_BYTE_SIZE = 1 := by decide
  rw [hdiv, one_mul, List.take_replicate]
  congr 1

/-- Helper for C1: a whole-frame value survives slicing and reassembly. -/
theorem sliceFrames_replicate_exact :
    (sliceFrames (List.replicate MAX_BYTE_SIZE (0 : Nat))).flatten
      = List.replicate MAX_BYTE_SIZE 0 := by
  rw [sliceFrames_flatten, List.length_replicate, Nat.div_self (by decide), one_mul,
    List.take_replicate]
  congr 1

/-- C1: the claim says the emitter produces `⌈|v|/FRAME_MAX⌉` value frames
concatenating to exactly `v`, so `push_file` then `pull_file` round-trips
byte-exactly for `|v| > FRAME_MAX`. The code loops `i in 0..|v|/FRAME_MAX`
(floor) in both `insert_file` and `pull_file`, dropping the
`|v| mod FRAME_MAX` tail: at `|v| = FRAME_MAX + 1` the round trip returns
only the first `FRAME_MAX` bytes, not `v`. -/
theorem framing_roundTrip_drops_tail :
    fileRoundTrip [107] (List.replicate (MAX_BYTE_SIZE + 1) 0)
        = .ok (List.replicate MAX_BYTE_SIZE 0) ∧
      List.replicate MAX_BYTE_SIZE (0 : Nat) ≠ List.replicate (MAX_BYTE_SIZE + 1) 0 := by
  constructor
  · have h1 : (Global.new.push_file
        (Local.emitFrames [107] (List.replicate (MAX_BYTE_SIZE + 1) 0))).1
        = ⟨[([107], List.replicate MAX_BYTE_SIZE 0)], [], []⟩ := by
      simp [Global.push_file, Local.emitFrames, Global.insert, Global.new, alLookup,
        alInsert, sliceFrames_replicate_succ]
    rw [fileRoundTrip, h1]
    simp [Local.get_file, Global.pull_file, alLookup, sliceFrames_replicate_exact]
  · intro h
    have hlen := congrArg List.length h
    simp only [List.length_replicate] at hlen
    omega

/-- C4: the claim says an RPC naming a never-joined node id does not crash the
handler but fails with an unknown-node error. The code's `update` handler
unwraps the cluster lookup, so on the empty coordinator — and likewise on one
where only a different id "m1" joined — `update("n1")` panics, crashing the
handler instead of returning any status. -/
theorem update_unknown_node_panics :
    (Global.new.update [110, 49]).2 = .panicked ∧
      ((Global.new.join [109, 49]).update [110, 49]).2 = .panicked := by
  constructor <;> rfl

/-- C5: the claim says `pull_file` on an absent key fails with not-found and
never yields a stream reassembled into a success. The handler returns the
stream unconditionally; the producer task panics on the `unwrap`ped lookup
after sending zero frames, and the node's `get_file` reassembles that empty
stream into the empty value, presented as success. -/
theorem pull_file_absent_empty_success :
    Global.new.pull_file [107] = .ok [] ∧
      Local.get_file Global.new [107] = .ok [] := by
  constructor <;> rfl

/-- C6: the claim says the node's insert threshold is inclusive — a value of
exactly `FRAME_MAX` bytes goes as a single frame via `push`. The code tests
`value.len() < MAX_BYTE_SIZE`, so a value of exactly `MAX_BYTE_SIZE` bytes is
streamed via `push_file`; one byte less is sent single, one byte more is
streamed. -/
theorem insert_threshold_is_exclusive :
    Local.insertTransport (List.replicate MAX_BYTE_SIZE 0) = .streamed ∧
      Local.insertTransport (List.replicate (MAX_BYTE_SIZE - 1) 0) = .single ∧
      Local.insertTransport (List.replicate (MAX_BYTE_SIZE + 1) 0) = .streamed := by
  unfold Local.insertTransport
  rw [List.length_replicate, List.length_replicate, List.length_replicate]
  refine ⟨?_, ?_, ?_⟩
  · rw [if_neg (lt_irrefl MAX_BYTE_SIZE)]
  · rw [if_pos (Nat.sub_lt (by norm_num [MAX_BYTE_SIZE]) Nat.one_pos)]
  · rw [if_neg (Nat.not_lt.mpr (Nat.le_succ MAX_BYTE_SIZE))]

/-- C7: the claim says `push_file` on a stream of zero frames fails with
malformed-stream and commits nothing. The code's reassembly loop leaves both
the key and value buffers empty and inserts them: on a fresh coordinator the
call returns ok and commits the empty key mapped to the empty value. -/
theorem push_file_zero_frames_commits_empty :
    (Global.new.push_file []).2 = .ok () ∧
      alLookup (Global.new.push_file []).1.db [] = some [] := by
  constructor <;> rfl

/-- C2: `remove(k)` first appends k to the invalidation queue of every node
registered at that moment, then deletes k from the store; on success the
store no longer contains k, and when k was absent it fails not-found with the
already-enqueued invalidations kept and the store unchanged. -/
theorem remove_appends_then_deletes (g : Global) (k : Bytes) :
    (g.remove k).1.cluster = g.cluster.map (fun p => (p.1, p.2 ++ [k])) ∧
      ((g.remove k).2 = .ok () ↔ (alLookup g.db k).isSome) ∧
      ((alLookup g.db k).isSome → alLookup (g.remove k).1.db k = none) ∧
      (alLookup g.db k = none →
        (g.remove k).2 = .error .notFound ∧ (g.remove k).1.db = g.db) := by
  unfold Global.remove
  cases h : alLookup g.db k <;> simp [h, alLookup_alErase_self]

theorem remove_appends_then_deletes_witness :
    alLookup ((Global.mk [([1], [2])] [] [([5], [])]).remove [1]).1.db [1] = none :=
  (remove_appends_then_deletes (Global.mk [([1], [2])] [] [([5], [])]) [1]).2.2.1
    (by decide)

/-- C3: `push(k, v1)` on a store without k succeeds; a second `push(k, v2)`
fails already-exists and leaves the state unchanged; `pull(k)` afterwards
still returns v1; and in general `push` fails already-exists exactly when the
key is already present. -/
theorem push_twice_already_exists (g : Global) (k v1 v2 : Bytes)
    (h : alLookup g.db k = none) :
    (g.push k v1).2 = .ok () ∧
      ((g.push k v1).1.push k v2).2 = .error .alreadyExists ∧
      ((g.push k v1).1.push k v2).1 = (g.push k v1).1 ∧
      ((g.push k v1).1.push k v2).1.pull k = .ok v1 ∧
      (∀ (g2 : Global) (q w : Bytes),
        ((g2.push q w).2 = .error .alreadyExists ↔ (alLookup g2.db q).isSome)) := by
  have h1 : g.push k v1 = ({ g with db := alInsert g.db k v1 }, .ok ()) := by
    simp [Global.push, Global.insert, h]
  have h2 : ({ g with db := alInsert g.db k v1 } : Global).push k v2
      = ({ g with db := alInsert g.db k v1 }, .error .alreadyExists) := by
    simp [Global.push, Global.insert, alLookup_alInsert_self]
  refine ⟨?_, ?_, ?_, ?_, ?_⟩
  · rw [h1]
  · rw [h1, h2]
  · rw [h1, h2]
  · rw [h1, h2]
    simp [Global.pull, alLookup_alInsert_self]
  · intro g2 q w
    cases hq : alLookup g2.db q <;> simp [Global.push, Global.insert, hq]

theorem push_twice_already_exists_witness :
    ((Global.new.push [1] [2]).1.push [1] [3]).2 = .error .alreadyExists :=
  (push_twice_already_exists Global.new [1] [2] [3] rfl).2.1

/-- C8: named queues are FIFO — from a state where the queue named q is absent
or empty, `en_queue(q, v1); en_queue(q, v2); de_queue(q); de_queue(q)` returns
v1 then v2 — and `de_queue` fails not-found (the same error in both cases)
exactly when the name is absent or its queue is empty. -/
theorem queue_fifo (g : Global) (q v1 v2 : Bytes)
    (h : alLookup g.queues q = none ∨ alLookup g.queues q = some []) :
    (((g.en_queue q v1).en_queue q v2).de_queue q).2 = .ok v1 ∧
      ((((g.en_queue q v1).en_queue q v2).de_queue q).1.de_queue q).2 = .ok v2 ∧
      (∀ (g2 : Global) (r : Bytes),
        ((g2.de_queue r).2 = .error .notFound ↔
          (alLookup g2.queues r = none ∨ alLookup g2.queues r = some []))) := by
  have h1 : g.en_queue q v1 = { g with queues := alInsert g.queues q [v1] } := by
    rcases h with h | h <;> simp [Global.en_queue, h]
  have h2 : (g.en_queue q v1).en_queue q v2
      = { g with queues := alInsert (alInsert g.queues q [v1]) q [v1, v2] } := by
    rw [h1]
    simp [Global.en_queue, alLookup_alInsert_self]
  have h3 : ((g.en_queue q v1).en_queue q v2).de_queue q
      = ({ g with
            queues := alInsert (alInsert (alInsert g.queues q [v1]) q [v1, v2]) q [v2] },
          .ok v1) := by
    rw [h2]
    simp [Global.de_queue, alLookup_alInsert_self]
  refine ⟨?_, ?_, ?_⟩
  · rw [h3]
  · rw [h3]
    simp [Global.de_queue, alLookup_alInsert_self]
  · intro g2 r
    cases hq : alLookup g2.queues r with
    | none => simp [Global.de_queue, hq]
    | some l => cases l <;> simp [Global.de_queue, hq]

theorem queue_fifo_witness :
    (((Global.new.en_queue [1] [2]).en_queue [1] [3]).de_queue [1]).2 = .ok [2] :=
  (queue_fifo Global.new [1] [2] [3] (Or.inl rfl)).1

/-- C9: a queue entry, once created by `en_queue`, is never removed —
`de_queue` preserves exactly which names are present (a queue drained to
empty persists as an empty queue), and a later `en_queue` to an existing name
appends to the existing queue rather than creating a new one. -/
theorem queues_never_removed (g : Global) (q k v : Bytes) :
    ((alLookup (g.de_queue k).1.queues q).isSome ↔ (alLookup g.queues q).isSome) ∧
      ((alLookup g.queues q).isSome → (alLookup (g.en_queue k v).queues q).isSome) ∧
      (∀ l, alLookup g.queues q = some l →
        alLookup (g.en_queue q v).queues q = some (l ++ [v])) := by
  refine ⟨?_, ?_, ?_⟩
  · unfold Global.de_queue
    cases hk : alLookup g.queues k with
    | none => simp
    | some l =>
      cases l with
      | nil => simp
      | cons x rest =>
        by_cases hq : k = q
        · subst hq
          simp [alLookup_alInsert_self, hk]
        · simp [alLookup_alInsert_ne _ _ _ _ hq]
  · unfold Global.en_queue
    cases hk : alLookup g.queues k with
    | none =>
      by_cases hq : k = q
      · subst hq
        simp [alLookup_alInsert_self]
      · simp [alLookup_alInsert_ne _ _ _ _ hq]
    | some w =>
      by_cases hq : k = q
      · subst hq
        simp [alLookup_alInsert_self]
      · simp [alLookup_alInsert_ne _ _ _ _ hq]
  · intro l hl
    simp [Global.en_queue, hl, alLookup_alInsert_self]

theorem queues_never_removed_witness :
    alLookup ((Global.mk [] [([1], [[2]])] []).en_queue [1] [3]).queues [1]
      = some [[2], [3]] :=
  (queues_never_removed (Global.mk [] [([1], [[2]])] []) [1] [1] [3]).2.2 [[2]]
    (by decide)

/-- C10: `contains` reports the stored value's length cast with `as i32`:
exact for lengths up to `2 ^ 31 - 1`, and in general the length truncated to
32 bits two's complement (in `[-2 ^ 31, 2 ^ 31)`, congruent to the length
modulo `2 ^ 32`, hence possibly negative); the node's `get` feeds this size,
cast back with `as usize`, into its pull / pull_file choice. -/
theorem contains_reports_i32_length (g : Global) (k v : Bytes)
    (h : alLookup g.db k = some v) :
    g.contains k = .ok (toI32 v.length) ∧
      (v.length ≤ 2 ^ 31 - 1 → toI32 v.length = (v.length : Int)) ∧
      (-(2 ^ 31) ≤ toI32 v.length ∧ toI32 v.length < 2 ^ 31 ∧
        toI32 v.length % 2 ^ 32 = (v.length : Int) % 2 ^ 32) ∧
      Local.getChoice [] g k = some (Local.getTransport (toI32 v.length)) := by
  refine ⟨?_, ?_, ?_, ?_⟩
  · simp [Global.contains, h]
  · intro hle
    unfold toI32
    split <;> omega
  · unfold toI32
    split <;> refine ⟨by omega, by omega, by omega⟩
  · simp [Local.getChoice, Global.contains, alLookup, h]

theorem contains_reports_i32_length_witness :
    (Global.mk [([1], [7, 8, 9])] [] []).contains [1] = .ok (toI32 3) :=
  (contains_reports_i32_length (Global.mk [([1], [7, 8, 9])] [] []) [1] [7, 8, 9]
    (by decide)).1
